import Mathlib

/-!
Verification of the render-scheduling core of the ComputerDrawings repository.

The Python sources are shallowly embedded: pure functions become Lean
functions over ℝ and ℤ, the Tkinter scheduler (debounce timer, single
background render, completion polling) becomes an explicit step function on a
scheduler-state record, and Python `int(...)` conversion of a float becomes
truncation toward zero on ℝ.
-/

/-- Python `int(x)` applied to a float truncates toward zero: floor for
nonnegative arguments, ceiling for negative ones. -/
noncomputable def truncInt (x : ℝ) : ℤ :=
  if 0 ≤ x then ⌊x⌋ else ⌈x⌉

theorem truncInt_of_nonneg {x : ℝ} (hx : 0 ≤ x) : truncInt x = ⌊x⌋ :=
  if_pos hx

theorem truncInt_of_neg {x : ℝ} (hx : ¬ 0 ≤ x) : truncInt x = ⌈x⌉ :=
  if_neg hx

/-- Embedding of `deep_zoom_utils.estimate_required_iterations`:
if `zoom_level <= 1.0` return `base_iterations`, otherwise
`int(base_iterations * math.log10(zoom_level + 1) + base_iterations)`
capped by `min` at 50000. -/
noncomputable def estimate_required_iterations (zoom_level : ℝ) (base_iterations : ℤ) : ℤ :=
  if zoom_level ≤ 1 then base_iterations
  else
    min (truncInt ((base_iterations : ℝ) * Real.logb 10 (zoom_level + 1) + (base_iterations : ℝ)))
      50000

/-- The iteration estimate exactly as the specification words it, with a
mathematical floor in place of the code's `int(...)` truncation.  Kept as a
separate definition so it can be compared with the embedding of the source. -/
noncomputable def estimateIterationsClaim (z : ℝ) (b : ℤ) : ℤ :=
  if z ≤ 1 then b
  else min ⌊(b : ℝ) * Real.logb 10 (z + 1) + (b : ℝ)⌋ 50000

/-- Result record of `deep_zoom_utils.get_precision_at_zoom`. -/
structure PrecisionInfo where
  decimal_digits_needed : ℤ
  precision_warning : Prop
  float64_max_digits : ℤ
  precision_percent : ℝ

/-- Embedding of `deep_zoom_utils.get_precision_at_zoom`:
`safe_zoom = max(zoom_level, 1.0)`,
`decimal_digits_needed = max(1, int(log10(safe_zoom)) + 2)`,
`precision_warning = decimal_digits_needed > 15 * 0.8`,
`precision_percent = min(100, decimal_digits_needed / 15 * 100)`. -/
noncomputable def get_precision_at_zoom (zoom_level : ℝ) : PrecisionInfo :=
  let safe_zoom : ℝ := max zoom_level 1
  let decimal_digits_needed : ℤ := max 1 (truncInt (Real.logb 10 safe_zoom) + 2)
  { decimal_digits_needed := decimal_digits_needed
    precision_warning := (15 : ℝ) * 0.8 < (decimal_digits_needed : ℝ)
    float64_max_digits := 15
    precision_percent := min 100 ((decimal_digits_needed : ℝ) / 15 * 100) }

theorem logb_ten_ten : Real.logb 10 10 = 1 :=
  Real.logb_self_eq_one (by norm_num)

theorem logb_ten_three_pos : 0 < Real.logb 10 3 :=
  Real.logb_pos (by norm_num) (by norm_num)

theorem logb_ten_three_lt_one : Real.logb 10 3 < 1 := by
  rw [Real.logb_lt_iff_lt_rpow (by norm_num) (by norm_num), Real.rpow_one]
  norm_num

theorem truncInt_intCast (n : ℤ) : truncInt ((n : ℤ) : ℝ) = n := by
  rw [truncInt]
  split
  · exact Int.floor_intCast n
  · exact Int.ceil_intCast n

theorem estimate_at_nine (b : ℤ) :
    estimate_required_iterations 9 b = min (2 * b) 50000 := by
  rw [estimate_required_iterations, if_neg (by norm_num)]
  have h10 : (9 : ℝ) + 1 = 10 := by norm_num
  rw [h10, logb_ten_ten]
  have harg : (b : ℝ) * 1 + (b : ℝ) = ((2 * b : ℤ) : ℝ) := by push_cast; ring
  rw [harg, truncInt_intCast]

theorem estimate_nine_500 : estimate_required_iterations 9 500 = 1000 := by
  rw [estimate_at_nine]
  norm_num

theorem estimate_one (b : ℤ) : estimate_required_iterations 1 b = b := by
  rw [estimate_required_iterations, if_pos le_rfl]

/-- C4 counterexample input: the code truncates toward zero while the claim
floors, and the two differ at `zoom_level = 2`, `base_iterations = -1`. -/
theorem C4_estimate_trunc_ne_floor :
    estimate_required_iterations 2 (-1) = -1 ∧
      estimateIterationsClaim 2 (-1) = -2 ∧
      estimate_required_iterations 2 (-1) ≠ estimateIterationsClaim 2 (-1) := by
  have hL0 : 0 < Real.logb 10 3 := logb_ten_three_pos
  have hL1 : Real.logb 10 3 < 1 := logb_ten_three_lt_one
  have h3 : (2 : ℝ) + 1 = 3 := by norm_num
  have harg : ((-1 : ℤ) : ℝ) * Real.logb 10 3 + ((-1 : ℤ) : ℝ) = -(Real.logb 10 3 + 1) := by
    push_cast; ring
  have hcode : estimate_required_iterations 2 (-1) = -1 := by
    rw [estimate_required_iterations, if_neg (by norm_num), h3, harg,
      truncInt_of_neg (by intro h; nlinarith)]
    have hceil : ⌈-(Real.logb 10 3 + 1)⌉ = -1 := by
      rw [Int.ceil_eq_iff]
      constructor
      · push_cast; nlinarith
      · push_cast; nlinarith
    rw [hceil]
    norm_num
  have hclaim : estimateIterationsClaim 2 (-1) = -2 := by
    rw [estimateIterationsClaim, if_neg (by norm_num), h3, harg]
    have hfloor : ⌊-(Real.logb 10 3 + 1)⌋ = -2 := by
      rw [Int.floor_eq_iff]
      constructor
      · push_cast; nlinarith
      · push_cast; nlinarith
    rw [hfloor]
    norm_num
  refine ⟨hcode, hclaim, ?_⟩
  rw [hcode, hclaim]
  decide

/-- C4 (amended): for every zoom level and every nonnegative base iteration
count, the code's estimate agrees with the spec formula
(`b` if `z ≤ 1`, else `floor(b * log10(z+1) + b)` capped at 50000). -/
theorem C4_estimate_matches_spec_formula (z : ℝ) (b : ℤ) (hb : 0 ≤ b) :
    estimate_required_iterations z b = estimateIterationsClaim z b := by
  rw [estimate_required_iterations, estimateIterationsClaim]
  by_cases hz : z ≤ 1
  · rw [if_pos hz, if_pos hz]
  · rw [if_neg hz, if_neg hz]
    have hz1 : (1 : ℝ) ≤ z + 1 := by
      push_neg at hz; linarith
    have hL : 0 ≤ Real.logb 10 (z + 1) := Real.logb_nonneg (by norm_num) hz1
    have hbR : (0 : ℝ) ≤ (b : ℝ) := by exact_mod_cast hb
    have harg : 0 ≤ (b : ℝ) * Real.logb 10 (z + 1) + (b : ℝ) :=
      add_nonneg (mul_nonneg hbR hL) hbR
    rw [truncInt_of_nonneg harg]

/-- Witness for C4 at `z = 0`, `b = 5`. -/
theorem C4_witness :
    (0 : ℤ) ≤ 5 ∧ estimate_required_iterations 0 5 = estimateIterationsClaim 0 5 :=
  ⟨by decide, C4_estimate_matches_spec_formula 0 5 (by decide)⟩

/-- C5 counterexample input: with `base_iterations = 60000` the function is
not monotone on `zoomLevel ≥ 1` (the `z ≤ 1` branch is uncapped) and exceeds
the 50000 cap at `z = 1`. -/
theorem C5_estimate_not_monotone_at_60000 :
    estimate_required_iterations 9 60000 < estimate_required_iterations 1 60000 ∧
      50000 < estimate_required_iterations 1 60000 := by
  rw [estimate_one, estimate_at_nine]
  norm_num

/-- C5 (amended): for `0 ≤ base_iterations ≤ 50000` the estimate is
monotonically non-decreasing in the zoom level on `[1, ∞)` and never exceeds
the 50000 cap. -/
theorem C5_estimate_monotone_and_capped (b : ℤ) (hb0 : 0 ≤ b) (hb5 : b ≤ 50000) :
    (∀ z1 z2 : ℝ, 1 ≤ z1 → z1 ≤ z2 →
        estimate_required_iterations z1 b ≤ estimate_required_iterations z2 b) ∧
      (∀ z : ℝ, estimate_required_iterations z b ≤ 50000) := by
  have hbR : (0 : ℝ) ≤ (b : ℝ) := by exact_mod_cast hb0
  constructor
  · intro z1 z2 hz1 h12
    by_cases hz2le : z2 ≤ 1
    · rw [estimate_required_iterations, if_pos (le_trans h12 hz2le),
        estimate_required_iterations, if_pos hz2le]
    · have hz2 : 1 < z2 := by push_neg at hz2le; exact hz2le
      have hL2 : 0 ≤ Real.logb 10 (z2 + 1) := Real.logb_nonneg (by norm_num) (by linarith)
      have harg2 : (b : ℝ) ≤ (b : ℝ) * Real.logb 10 (z2 + 1) + (b : ℝ) := by
        nlinarith
      have harg2pos : 0 ≤ (b : ℝ) * Real.logb 10 (z2 + 1) + (b : ℝ) := le_trans hbR harg2
      by_cases hz1le : z1 ≤ 1
      · rw [estimate_required_iterations, if_pos hz1le,
          estimate_required_iterations, if_neg hz2le, truncInt_of_nonneg harg2pos]
        refine le_min ?_ hb5
        exact Int.le_floor.mpr harg2
      · have hz1gt : 1 < z1 := by push_neg at hz1le; exact hz1le
        have hL1 : 0 ≤ Real.logb 10 (z1 + 1) := Real.logb_nonneg (by norm_num) (by linarith)
        have hLle : Real.logb 10 (z1 + 1) ≤ Real.logb 10 (z2 + 1) :=
          Real.logb_le_logb_of_le (by norm_num) (by linarith) (by linarith)
        have harg1pos : 0 ≤ (b : ℝ) * Real.logb 10 (z1 + 1) + (b : ℝ) := by
          nlinarith
        rw [estimate_required_iterations, if_neg hz1le,
          estimate_required_iterations, if_neg hz2le,
          truncInt_of_nonneg harg1pos, truncInt_of_nonneg harg2pos]
        refine min_le_min ?_ le_rfl
        refine Int.floor_le_floor ?_
        nlinarith
  · intro z
    rw [estimate_required_iterations]
    by_cases hz : z ≤ 1
    · rw [if_pos hz]; exact hb5
    · rw [if_neg hz]; exact min_le_right _ _

/-- Witness for C5 at `b = 500`, `z1 = 1`, `z2 = 9`. -/
theorem C5_witness :
    (0 : ℤ) ≤ 500 ∧ (500 : ℤ) ≤ 50000 ∧ (1 : ℝ) ≤ 1 ∧ (1 : ℝ) ≤ 9 ∧
      estimate_required_iterations 1 500 ≤ estimate_required_iterations 9 500 ∧
      estimate_required_iterations 1 500 ≤ 50000 :=
  ⟨by decide, by decide, le_rfl, by norm_num,
    (C5_estimate_monotone_and_capped 500 (by decide) (by decide)).1 1 9 le_rfl (by norm_num),
    (C5_estimate_monotone_and_capped 500 (by decide) (by decide)).2 1⟩

/-- C6: `get_precision_at_zoom` returns
`digits = max(1, floor(log10(max(z,1))) + 2)`, warns exactly when
`digits > 0.8 * 15`, reports `percent = min(100, digits / 15 * 100)`, and in
particular gives digits 2 with no warning at zoom 1 and warns at zoom 1e13. -/
theorem C6_precision_info :
    (∀ z : ℝ,
        (get_precision_at_zoom z).decimal_digits_needed =
            max 1 (⌊Real.logb 10 (max z 1)⌋ + 2) ∧
          ((get_precision_at_zoom z).precision_warning ↔
            (0.8 : ℝ) * 15 < ((get_precision_at_zoom z).decimal_digits_needed : ℝ)) ∧
          (get_precision_at_zoom z).precision_percent =
            min 100 (((get_precision_at_zoom z).decimal_digits_needed : ℝ) / 15 * 100)) ∧
      (get_precision_at_zoom 1).decimal_digits_needed = 2 ∧
      ¬ (get_precision_at_zoom 1).precision_warning ∧
      (get_precision_at_zoom (1e13 : ℝ)).precision_warning := by
  have hgen : ∀ z : ℝ,
      (get_precision_at_zoom z).decimal_digits_needed =
        max 1 (⌊Real.logb 10 (max z 1)⌋ + 2) := by
    intro z
    have hL : 0 ≤ Real.logb 10 (max z 1) :=
      Real.logb_nonneg (by norm_num) (le_max_right z 1)
    rw [get_precision_at_zoom]
    simp only
    rw [truncInt_of_nonneg hL]
  refine ⟨?_, ?_, ?_, ?_⟩
  · intro z
    refine ⟨hgen z, ?_, ?_⟩
    · rw [get_precision_at_zoom]
      constructor
      · intro h; linarith
      · intro h; linarith
    · rw [get_precision_at_zoom]
  · rw [hgen 1]
    have : max (1 : ℝ) 1 = 1 := max_self 1
    rw [this, Real.logb_one]
    norm_num
  · have hd : (get_precision_at_zoom 1).decimal_digits_needed = 2 := by
      rw [hgen 1, max_self, Real.logb_one]
      norm_num
    rw [get_precision_at_zoom]
    simp only
    intro h
    rw [get_precision_at_zoom] at hd
    simp only at hd
    rw [hd] at h
    norm_num at h
  · have hmax : max (1e13 : ℝ) 1 = (1e13 : ℝ) := max_eq_left (by norm_num)
    have hpow : (1e13 : ℝ) = (10 : ℝ) ^ (13 : ℕ) := by norm_num
    have hlog : Real.logb 10 (1e13 : ℝ) = 13 := by
      rw [hpow, Real.logb_pow, logb_ten_ten]
      norm_num
    have hd : (get_precision_at_zoom (1e13 : ℝ)).decimal_digits_needed = 15 := by
      rw [hgen, hmax, hlog]
      norm_num
    rw [get_precision_at_zoom]
    simp only
    rw [get_precision_at_zoom] at hd
    simp only at hd
    rw [hd]
    norm_num

/-- A bounding box `(x_min, x_max, y_min, y_max)` as stored in
`self.mandelbrot.coord`. -/
structure Bounds where
  xmin : ℝ
  xmax : ℝ
  ymin : ℝ
  ymax : ℝ

/-- Embedding of `ModernMandelbrotGUI.canvas_to_complex` for the 1:1 display
mapping: reject a pixel outside `[0, width) x [0, height)` with `none`,
otherwise interpolate `x_ratio = x / width`, `y_ratio = y / height` into the
bounds, flipping the y axis (`complex_y` uses `1 - y_ratio`).  The dimensions
are those of `self.current_image`; the `none` returned when no image exists
yet is the same failure value. -/
noncomputable def canvas_to_complex (width height : ℕ) (coord : Bounds)
    (canvas_x canvas_y : ℤ) : Option (ℝ × ℝ) :=
  if canvas_x < 0 ∨ (width : ℤ) ≤ canvas_x ∨ canvas_y < 0 ∨ (height : ℤ) ≤ canvas_y then
    none
  else
    some (coord.xmin + ((canvas_x : ℝ) / (width : ℝ)) * (coord.xmax - coord.xmin),
      coord.ymin + (1 - (canvas_y : ℝ) / (height : ℝ)) * (coord.ymax - coord.ymin))

/-- Embedding of `MandelbrotExplorerScreen.screen_to_fractal_coords` in
`fractal_explorer.py`: `None, None` only when the image widget has no
texture (`has_texture`); otherwise `local = pos - image origin`,
`norm_x = local_x / width`, `norm_y = 1 - local_y / height`, interpolated
into the bounds — with no range check on the incoming position at all. -/
noncomputable def screen_to_fractal_coords (has_texture : Bool)
    (img_x img_y img_width img_height : ℝ) (coord : Bounds)
    (pos_x pos_y : ℝ) : Option (ℝ × ℝ) :=
  if has_texture then
    some (coord.xmin + ((pos_x - img_x) / img_width) * (coord.xmax - coord.xmin),
      coord.ymin + (1 - (pos_y - img_y) / img_height) * (coord.ymax - coord.ymin))
  else none

/-- C8 counterexample input: the Kivy mapper does not reject an out-of-range
pixel.  With the image widget at the origin, 100 x 100 pixels, over the
square `[0,2] x [0,2]`, the position `(150, 0)` lies outside `[0, width)`
yet the function returns the extrapolated coordinate `(3, 2)` instead of the
failure value. -/
theorem C8_kivy_mapper_does_not_reject :
    (100 : ℝ) ≤ 150 ∧
      screen_to_fractal_coords true 0 0 100 100 ⟨0, 2, 0, 2⟩ 150 0 = some (3, 2) ∧
      screen_to_fractal_coords true 0 0 100 100 ⟨0, 2, 0, 2⟩ 150 0 ≠ none := by
  have hvalue : screen_to_fractal_coords true 0 0 100 100 ⟨0, 2, 0, 2⟩ 150 0 = some (3, 2) := by
    rw [screen_to_fractal_coords, if_pos rfl]
    norm_num
  refine ⟨by norm_num, hvalue, ?_⟩
  rw [hvalue]
  simp

/-- C8 (amended): the Tkinter `canvas_to_complex` fails exactly outside
`[0,width) x [0,height)` and otherwise interpolates `nx = px/width`,
`ny = 1 - py/height` into the bounds; the Kivy `screen_to_fractal_coords`
fails only when no texture exists and otherwise interpolates the same
formula (relative to the widget origin) for every position, performing no
bounds check. -/
theorem C8_pixel_mapping_per_frontend (width height : ℕ) (coord : Bounds)
    (px py : ℤ) (tex : Bool) (ix iy iw ih sx sy : ℝ) :
    ((px < 0 ∨ (width : ℤ) ≤ px ∨ py < 0 ∨ (height : ℤ) ≤ py) →
        canvas_to_complex width height coord px py = none) ∧
      (0 ≤ px → px < (width : ℤ) → 0 ≤ py → py < (height : ℤ) →
        canvas_to_complex width height coord px py =
          some (coord.xmin + ((px : ℝ) / (width : ℝ)) * (coord.xmax - coord.xmin),
            coord.ymin + (1 - (py : ℝ) / (height : ℝ)) * (coord.ymax - coord.ymin))) ∧
      (tex = true →
        screen_to_fractal_coords tex ix iy iw ih coord sx sy =
          some (coord.xmin + ((sx - ix) / iw) * (coord.xmax - coord.xmin),
            coord.ymin + (1 - (sy - iy) / ih) * (coord.ymax - coord.ymin))) ∧
      (tex = false → screen_to_fractal_coords tex ix iy iw ih coord sx sy = none) := by
  refine ⟨?_, ?_, ?_, ?_⟩
  · intro h
    rw [canvas_to_complex, if_pos h]
  · intro h1 h2 h3 h4
    rw [canvas_to_complex, if_neg]
    push_neg
    exact ⟨h1, h2, h3, h4⟩
  · intro h
    rw [screen_to_fractal_coords, if_pos h]
  · intro h
    rw [screen_to_fractal_coords, if_neg (by rw [h]; exact Bool.false_ne_true)]

/-- Witness for C8: the Tkinter mapper rejects an out-of-range pixel and
interpolates an in-range one on a 2x2 image over `[0,2] x [0,2]`; the Kivy
mapper interpolates even the out-of-range position `(150, 0)` and fails
without a texture. -/
theorem C8_witness :
    (((-1 : ℤ) < 0 ∨ (2 : ℤ) ≤ -1 ∨ (0 : ℤ) < 0 ∨ (2 : ℤ) ≤ 0) ∧
        canvas_to_complex 2 2 ⟨0, 2, 0, 2⟩ (-1) 0 = none) ∧
      ((0 : ℤ) ≤ 1 ∧ (1 : ℤ) < 2 ∧
        canvas_to_complex 2 2 ⟨0, 2, 0, 2⟩ 1 1 =
          some ((0 : ℝ) + ((1 : ℤ) : ℝ) / ((2 : ℕ) : ℝ) * ((2 : ℝ) - 0),
            (0 : ℝ) + (1 - ((1 : ℤ) : ℝ) / ((2 : ℕ) : ℝ)) * ((2 : ℝ) - 0))) ∧
      (true = true ∧
        screen_to_fractal_coords true 0 0 100 100 ⟨0, 2, 0, 2⟩ 150 0 =
          some ((0 : ℝ) + (((150 : ℝ) - 0) / 100) * ((2 : ℝ) - 0),
            (0 : ℝ) + (1 - ((0 : ℝ) - 0) / 100) * ((2 : ℝ) - 0))) ∧
      screen_to_fractal_coords false 0 0 100 100 ⟨0, 2, 0, 2⟩ 50 50 = none :=
  ⟨⟨Or.inl (by decide),
      (C8_pixel_mapping_per_frontend 2 2 ⟨0, 2, 0, 2⟩ (-1) 0 true 0 0 1 1 0 0).1
        (Or.inl (by decide))⟩,
    ⟨by decide, by decide,
      (C8_pixel_mapping_per_frontend 2 2 ⟨0, 2, 0, 2⟩ 1 1 true 0 0 1 1 0 0).2.1
        (by decide) (by decide) (by decide) (by decide)⟩,
    ⟨rfl,
      (C8_pixel_mapping_per_frontend 2 2 ⟨0, 2, 0, 2⟩ 1 1 true 0 0 100 100 150 0).2.2.1 rfl⟩,
    (C8_pixel_mapping_per_frontend 2 2 ⟨0, 2, 0, 2⟩ 1 1 false 0 0 100 100 50 50).2.2.2 rfl⟩

/-- The view state mutated by the canvas zoom handlers: the current bounds
(`self.mandelbrot.coord`) and `self.zoom_level`. -/
structure ViewState where
  coord : Bounds
  zoom_level : ℝ

/-- Modelled from the spec: `Mandelbrot.zoom_at` lives in the external
`mandelbrot` engine module, which is not part of this repository's sources.
Per spec section 4.2, the target point becomes the new center and the new
half-width (and, via the aspect-ratio invariant, the new half-height) is the
old one multiplied by `factor`. -/
noncomputable def zoom_at (c : Bounds) (x y factor : ℝ) : Bounds :=
  let halfW := (c.xmax - c.xmin) / 2 * factor
  let halfH := (c.ymax - c.ymin) / 2 * factor
  ⟨x - halfW, x + halfW, y - halfH, y + halfH⟩

/-- Embedding of the zoom part of `ModernMandelbrotGUI.on_canvas_click`
(left click, after the canvas point has been converted to complex
coordinates `x, y`): `zoom_at(x, y, 0.25)` and `zoom_level *= 4`. -/
noncomputable def on_canvas_click (s : ViewState) (x y : ℝ) : ViewState :=
  ⟨zoom_at s.coord x y 0.25, s.zoom_level * 4⟩

/-- Embedding of the zoom part of `on_canvas_right_click`:
`zoom_at(x, y, 4.0)` and `zoom_level /= 4`. -/
noncomputable def on_canvas_right_click (s : ViewState) (x y : ℝ) : ViewState :=
  ⟨zoom_at s.coord x y 4, s.zoom_level / 4⟩

/-- Embedding of the scroll-up branch of `on_canvas_scroll`:
`zoom_at(x, y, 0.5)` and `zoom_level *= 2`. -/
noncomputable def on_canvas_scroll_in (s : ViewState) (x y : ℝ) : ViewState :=
  ⟨zoom_at s.coord x y 0.5, s.zoom_level * 2⟩

/-- Embedding of the scroll-down branch of `on_canvas_scroll`:
`zoom_at(x, y, 2.0)` and `zoom_level /= 2`. -/
noncomputable def on_canvas_scroll_out (s : ViewState) (x y : ℝ) : ViewState :=
  ⟨zoom_at s.coord x y 2, s.zoom_level / 2⟩

/-- The home view: `coord=(-2.6, 1.845, -1.25, 1.25)` with `zoom_level=1.0`. -/
noncomputable def home_view : ViewState :=
  ⟨⟨-2.6, 1.845, -1.25, 1.25⟩, 1⟩

noncomputable def halfWidth (c : Bounds) : ℝ :=
  (c.xmax - c.xmin) / 2

/-- C9: every zoom handler multiplies the stored zoom level by the reciprocal
of its `zoom_at` factor, and two left clicks at the origin from the home view
leave `zoom_level = 16` and one sixteenth of the original half-width. -/
theorem C9_zoom_level_reciprocal_factor :
    (∀ (s : ViewState) (x y : ℝ),
        (on_canvas_click s x y).zoom_level = s.zoom_level / 0.25 ∧
          (on_canvas_right_click s x y).zoom_level = s.zoom_level / 4 ∧
          (on_canvas_scroll_in s x y).zoom_level = s.zoom_level / 0.5 ∧
          (on_canvas_scroll_out s x y).zoom_level = s.zoom_level / 2) ∧
      (on_canvas_click (on_canvas_click home_view 0 0) 0 0).zoom_level = 16 ∧
      halfWidth (on_canvas_click (on_canvas_click home_view 0 0) 0 0).coord =
        halfWidth home_view.coord / 16 := by
  refine ⟨?_, ?_, ?_⟩
  · intro s x y
    refine ⟨?_, rfl, ?_, rfl⟩
    · rw [on_canvas_click]
      field_simp
      ring
    · rw [on_canvas_scroll_in]
      field_simp
      ring
  · rw [on_canvas_click, on_canvas_click, home_view]
    norm_num
  · rw [on_canvas_click, on_canvas_click, home_view, zoom_at, zoom_at, halfWidth, halfWidth]
    norm_num

/-- `self.max_history` from `ModernMandelbrotGUI.__init__`. -/
def max_history : ℕ := 20

/-- Embedding of `ModernMandelbrotGUI.save_current_view`: if the history
already holds `max_history` entries, `pop(0)` the oldest, then append the
current bounds.  The entry type is abstract because the method never
inspects stored entries. -/
def save_current_view {α : Type} (zoom_history : List α) (coord : α) : List α :=
  (if max_history ≤ zoom_history.length then zoom_history.drop 1 else zoom_history) ++ [coord]

theorem foldl_save_of_short {α : Type} :
    ∀ (l acc : List α), acc.length + l.length ≤ max_history →
      List.foldl save_current_view acc l = acc ++ l := by
  intro l
  induction l with
  | nil => intro acc _; simp
  | cons x xs ih =>
    intro acc h
    have hlen : acc.length < max_history := by
      simp at h
      omega
    have hstep : save_current_view acc x = acc ++ [x] := by
      rw [save_current_view, if_neg (by omega)]
    rw [List.foldl_cons, hstep, ih (acc ++ [x]) (by simp at h ⊢; omega)]
    simp

/-- C7: a push appends; a push onto a full history drops the oldest entry
first; 21 pushes onto an empty history leave exactly the last 20 entries in
push order. -/
theorem C7_history_fifo (α : Type) :
    (∀ (h : List α) (x : α), h.length < max_history →
        save_current_view h x = h ++ [x]) ∧
      (∀ (h : List α) (x : α), max_history ≤ h.length →
        save_current_view h x = h.drop 1 ++ [x]) ∧
      (∀ l : List α, l.length = 21 →
        List.foldl save_current_view [] l = l.drop 1) := by
  refine ⟨?_, ?_, ?_⟩
  · intro h x hlen
    rw [save_current_view, if_neg (by omega)]
  · intro h x hlen
    rw [save_current_view, if_pos hlen]
  · intro l hlen
    have hne : l ≠ [] := by
      intro h
      rw [h] at hlen
      simp at hlen
    have hdecomp : l.dropLast ++ [l.getLast hne] = l := List.dropLast_append_getLast hne
    have hdllen : l.dropLast.length = 20 := by
      rw [List.length_dropLast, hlen]
    rw [← hdecomp, List.foldl_append, List.foldl_cons, List.foldl_nil,
      foldl_save_of_short l.dropLast [] (by rw [hdllen]; rfl)]
    simp only [List.nil_append]
    rw [save_current_view, if_pos (by rw [hdllen]; rfl)]
    rcases hdl : l.dropLast with _ | ⟨a, t⟩
    · rw [hdl] at hdllen
      simp at hdllen
    · simp

/-- Witness for C7: pushing the numbers 0..20 in order onto an empty history
keeps exactly 1..20. -/
theorem C7_witness :
    ((List.range 5).length < max_history ∧
        save_current_view (List.range 5) 99 = List.range 5 ++ [99]) ∧
      (max_history ≤ (List.range 20).length ∧
        save_current_view (List.range 20) 99 = (List.range 20).drop 1 ++ [99]) ∧
      ((List.range 21).length = 21 ∧
        List.foldl save_current_view [] (List.range 21) = (List.range 21).drop 1) :=
  ⟨⟨by decide, (C7_history_fifo ℕ).1 (List.range 5) 99 (by decide)⟩,
    ⟨by decide, (C7_history_fifo ℕ).2.1 (List.range 20) 99 (by decide)⟩,
    ⟨by decide, (C7_history_fifo ℕ).2.2 (List.range 21) (by decide)⟩⟩

/-- Scheduler bookkeeping of `ModernMandelbrotGUI`, over an abstract snapshot
type `σ` standing for the render parameters held in `self.mandelbrot`:
`live` is that mutable parameter state, `update_pending` and `is_computing`
are the two flags of the source, `timer` is the remaining delay of an armed
`root.after(100, self.update_mandelbrot)` callback (in milliseconds, `none`
when no callback is outstanding), `active` counts dispatched renders whose
completion has not yet been collected by `check_computation`, and `renders`
logs the snapshot used by each dispatched render. -/
structure SchedState (σ : Type) where
  live : σ
  update_pending : Bool
  timer : Option ℕ
  is_computing : Bool
  active : ℕ
  renders : List σ
deriving DecidableEq

/-- Embedding of `ModernMandelbrotGUI.schedule_update`: if no update is
pending, set the flag and arm a 100 ms timer; otherwise do nothing. -/
def schedule_update {σ : Type} (st : SchedState σ) : SchedState σ :=
  if st.update_pending then st
  else { st with update_pending := true, timer := some 100 }

/-- Embedding of `ModernMandelbrotGUI.update_mandelbrot`: clear
`update_pending`, and return early if a computation is in flight; otherwise
mark `is_computing` and start a background render of the live snapshot. -/
def update_mandelbrot {σ : Type} (st : SchedState σ) : SchedState σ :=
  let st' := { st with update_pending := false }
  if st'.is_computing then st'
  else
    { st' with
      is_computing := true
      active := st'.active + 1
      renders := st'.renders ++ [st'.live] }

/-- Embedding of the completion arm of `ModernMandelbrotGUI.check_computation`:
when `computation_queue.get_nowait()` yields a result (success or error), the
only scheduler effect is clearing `is_computing`; neither branch dispatches
another render.  With an empty queue the method just re-polls, leaving the
state unchanged. -/
def check_computation {σ : Type} (st : SchedState σ) : SchedState σ :=
  if st.is_computing then
    { st with is_computing := false, active := st.active - 1 }
  else st

/-- External stimuli of the Tkinter scheduler: a render request (an input
event that mutates the live parameters and calls `schedule_update`), one
millisecond of timer countdown (firing `update_mandelbrot` on expiry), and
collection of a finished computation (success or error). -/
inductive SchedEvent (σ : Type) where
  | request : σ → SchedEvent σ
  | tick : SchedEvent σ
  | completeOk : SchedEvent σ
  | completeErr : SchedEvent σ
deriving DecidableEq

def sched_step {σ : Type} : SchedEvent σ → SchedState σ → SchedState σ
  | .request s, st => schedule_update { st with live := s }
  | .tick, st =>
      match st.timer with
      | none => st
      | some 0 => update_mandelbrot { st with timer := none }
      | some (n + 1) => { st with timer := some n }
  | .completeOk, st => check_computation st
  | .completeErr, st => check_computation st

def sched_run {σ : Type} (st : SchedState σ) (events : List (SchedEvent σ)) : SchedState σ :=
  events.foldl (fun s e => sched_step e s) st

/-- The scheduler state right after `ModernMandelbrotGUI.__init__` sets
`is_computing = False` and `update_pending = False`. -/
def sched_init {σ : Type} (s₀ : σ) : SchedState σ :=
  { live := s₀, update_pending := false, timer := none, is_computing := false,
    active := 0, renders := [] }

def SchedReachable {σ : Type} (s₀ : σ) (st : SchedState σ) : Prop :=
  ∃ tr : List (SchedEvent σ), sched_run (sched_init s₀) tr = st

/-- Scheduler bookkeeping of `MandelbrotExplorerScreen` in
`fractal_explorer.py`, which has no debounce timer: `update_mandelbrot` is
called directly and returns immediately while `is_computing`. -/
structure KivyState (σ : Type) where
  live : σ
  is_computing : Bool
  active : ℕ
  renders : List σ
deriving DecidableEq

/-- Embedding of `MandelbrotExplorerScreen.update_mandelbrot`. -/
def kivy_update_mandelbrot {σ : Type} (st : KivyState σ) : KivyState σ :=
  if st.is_computing then st
  else
    { st with
      is_computing := true
      active := st.active + 1
      renders := st.renders ++ [st.live] }

inductive KivyEvent (σ : Type) where
  | request : σ → KivyEvent σ
  | complete : KivyEvent σ
deriving DecidableEq

/-- `request` mutates the live parameters and calls `update_mandelbrot`;
`complete` is `display_result` / `on_computation_error`, both of which clear
`is_computing` and dispatch nothing. -/
def kivy_step {σ : Type} : KivyEvent σ → KivyState σ → KivyState σ
  | .request s, st => kivy_update_mandelbrot { st with live := s }
  | .complete, st =>
      if st.is_computing then
        { st with is_computing := false, active := st.active - 1 }
      else st

def kivy_run {σ : Type} (st : KivyState σ) (events : List (KivyEvent σ)) : KivyState σ :=
  events.foldl (fun s e => kivy_step e s) st

def kivy_init {σ : Type} (s₀ : σ) : KivyState σ :=
  { live := s₀, is_computing := false, active := 0, renders := [] }

def KivyReachable {σ : Type} (s₀ : σ) (st : KivyState σ) : Prop :=
  ∃ tr : List (KivyEvent σ), kivy_run (kivy_init s₀) tr = st

/-- Modelled from the spec: `requestRender(snapshot)` of section 4.5, which
on a request arriving while the debounce timer is pending resets the timer
and replaces the stored snapshot.  Kept separate so it can be compared with
the embedding of `schedule_update`. -/
def requestRender_spec {σ : Type} (s : σ) (st : SchedState σ) : SchedState σ :=
  { st with live := s, update_pending := true, timer := some 100 }


theorem sched_run_nil {σ : Type} (st : SchedState σ) : sched_run st [] = st :=
  rfl

theorem sched_run_cons {σ : Type} (st : SchedState σ) (e : SchedEvent σ)
    (es : List (SchedEvent σ)) :
    sched_run st (e :: es) = sched_run (sched_step e st) es :=
  rfl

theorem sched_run_append {σ : Type} (st : SchedState σ) (a b : List (SchedEvent σ)) :
    sched_run st (a ++ b) = sched_run (sched_run st a) b := by
  simp [sched_run, List.foldl_append]

/-- While `update_pending` is set, further requests only move the live
parameter state; the armed timer and all flags are untouched. -/
theorem run_requests_of_pending {σ : Type} :
    ∀ (l : List σ) (st : SchedState σ), st.update_pending = true →
      sched_run st (l.map SchedEvent.request) = { st with live := l.getLastD st.live } := by
  intro l
  induction l with
  | nil =>
    intro st _
    rw [List.map_nil, sched_run_nil, List.getLastD_nil]
  | cons x xs ih =>
    intro st h
    have hstep : sched_step (SchedEvent.request x) st = { st with live := x } := by
      simp [sched_step, schedule_update, h]
    rw [List.map_cons, sched_run_cons, hstep, ih _ (by simpa using h),
      List.getLastD_cons]

/-- Counting down an armed timer by `k ≤ n` milliseconds only decrements the
remaining delay. -/
theorem run_ticks_countdown {σ : Type} :
    ∀ (k : ℕ) (n : ℕ) (st : SchedState σ), st.timer = some n → k ≤ n →
      sched_run st (List.replicate k SchedEvent.tick) = { st with timer := some (n - k) } := by
  intro k
  induction k with
  | zero =>
    intro n st h _
    rw [List.replicate, sched_run_nil, Nat.sub_zero, ← h]
  | succ k ih =>
    intro n st h hk
    obtain ⟨m, rfl⟩ : ∃ m, n = m + 1 := ⟨n - 1, by omega⟩
    have hstep : sched_step SchedEvent.tick st = { st with timer := some m } := by
      simp [sched_step, h]
    rw [List.replicate_succ, sched_run_cons, hstep, ih m _ rfl (by omega)]
    have hmk : m + 1 - (k + 1) = m - k := by omega
    rw [hmk]

/-- The single-flight bookkeeping invariant of the Tkinter scheduler: the
number of uncollected dispatched renders is 1 exactly while `is_computing`. -/
def SchedInv {σ : Type} (st : SchedState σ) : Prop :=
  st.active = if st.is_computing then 1 else 0

theorem schedInv_step {σ : Type} (e : SchedEvent σ) (st : SchedState σ)
    (h : SchedInv st) : SchedInv (sched_step e st) := by
  cases e with
  | request s =>
    simp only [sched_step, schedule_update]
    split
    · exact h
    · exact h
  | tick =>
    simp only [sched_step]
    cases ht : st.timer with
    | none => exact h
    | some n =>
      cases n with
      | zero =>
        simp only [update_mandelbrot]
        split
        · exact h
        · rename_i hc
          simp only [SchedInv] at h ⊢
          simp at hc
          rw [hc] at h
          simp [h]
      | succ m => exact h
  | completeOk =>
    simp only [sched_step, check_computation]
    split
    · rename_i hc
      simp only [SchedInv] at h ⊢
      rw [hc] at h
      simp [h]
    · exact h
  | completeErr =>
    simp only [sched_step, check_computation]
    split
    · rename_i hc
      simp only [SchedInv] at h ⊢
      rw [hc] at h
      simp [h]
    · exact h

theorem schedInv_run {σ : Type} (tr : List (SchedEvent σ)) :
    ∀ st : SchedState σ, SchedInv st → SchedInv (sched_run st tr) := by
  induction tr with
  | nil => intro st h; exact h
  | cons e es ih =>
    intro st h
    rw [sched_run_cons]
    exact ih _ (schedInv_step e st h)

def KivyInv {σ : Type} (st : KivyState σ) : Prop :=
  st.active = if st.is_computing then 1 else 0

theorem kivyInv_step {σ : Type} (e : KivyEvent σ) (st : KivyState σ)
    (h : KivyInv st) : KivyInv (kivy_step e st) := by
  cases e with
  | request s =>
    simp only [kivy_step, kivy_update_mandelbrot]
    split
    · exact h
    · rename_i hc
      simp only [KivyInv] at h ⊢
      simp at hc
      rw [hc] at h
      simp [h]
  | complete =>
    simp only [kivy_step]
    split
    · rename_i hc
      simp only [KivyInv] at h ⊢
      rw [hc] at h
      simp [h]
    · exact h

theorem kivyInv_run {σ : Type} (tr : List (KivyEvent σ)) :
    ∀ st : KivyState σ, KivyInv st → KivyInv (kivy_run st tr) := by
  induction tr with
  | nil => intro st h; exact h
  | cons e es ih =>
    intro st h
    exact ih _ (kivyInv_step e st h)

/-- C3: in every reachable state of either front end's scheduler at most one
render is in flight, and no event dispatches a render while one is in flight
(the dispatch log never grows while `is_computing`). -/
theorem C3_single_flight (σ : Type) (s₀ : σ) :
    (∀ st : SchedState σ, SchedReachable s₀ st → st.active ≤ 1) ∧
      (∀ (st : SchedState σ) (e : SchedEvent σ), st.is_computing = true →
        (sched_step e st).renders = st.renders) ∧
      (∀ st : KivyState σ, KivyReachable s₀ st → st.active ≤ 1) ∧
      (∀ (st : KivyState σ) (e : KivyEvent σ), st.is_computing = true →
        (kivy_step e st).renders = st.renders) := by
  refine ⟨?_, ?_, ?_, ?_⟩
  · rintro st ⟨tr, rfl⟩
    have hinv : SchedInv (sched_run (sched_init s₀) tr) :=
      schedInv_run tr (sched_init s₀) rfl
    rw [SchedInv] at hinv
    rw [hinv]
    split <;> omega
  · intro st e hc
    cases e with
    | request s =>
      simp only [sched_step, schedule_update]
      split <;> rfl
    | tick =>
      simp only [sched_step]
      cases ht : st.timer with
      | none => rfl
      | some n =>
        cases n with
        | zero => simp [update_mandelbrot, hc]
        | succ m => rfl
    | completeOk =>
      simp only [sched_step, check_computation]
      split <;> rfl
    | completeErr =>
      simp only [sched_step, check_computation]
      split <;> rfl
  · rintro st ⟨tr, rfl⟩
    have hinv : KivyInv (kivy_run (kivy_init s₀) tr) :=
      kivyInv_run tr (kivy_init s₀) rfl
    rw [KivyInv] at hinv
    rw [hinv]
    split <;> omega
  · intro st e hc
    cases e with
    | request s => simp [kivy_step, kivy_update_mandelbrot, hc]
    | complete =>
      simp only [kivy_step]
      split <;> rfl

/-- Witness for C3: the invariant at the initial states, and concrete
in-flight states whose dispatch log is not extended. -/
theorem C3_witness :
    (sched_init (0 : ℕ)).active ≤ 1 ∧
      (sched_step SchedEvent.completeOk
          { live := (0 : ℕ), update_pending := false, timer := none,
            is_computing := true, active := 1, renders := [5] }).renders =
        ({ live := (0 : ℕ), update_pending := false, timer := none,
            is_computing := true, active := 1, renders := [5] } : SchedState ℕ).renders ∧
      (kivy_init (0 : ℕ)).active ≤ 1 ∧
      (kivy_step (KivyEvent.request 3)
          { live := (0 : ℕ), is_computing := true, active := 1, renders := [7] }).renders =
        ({ live := (0 : ℕ), is_computing := true, active := 1, renders := [7] } : KivyState ℕ).renders :=
  ⟨(C3_single_flight ℕ 0).1 _ ⟨[], rfl⟩,
    (C3_single_flight ℕ 0).2.1 _ SchedEvent.completeOk rfl,
    (C3_single_flight ℕ 0).2.2.1 _ ⟨[], rfl⟩,
    (C3_single_flight ℕ 0).2.2.2 _ (KivyEvent.request 3) rfl⟩

set_option maxRecDepth 8000 in
/-- C1 counterexample run: snapshot 0 is requested and its timer fires
(dispatching it); while that render is in flight snapshot 1 is requested and
its timer expires; the render then completes.  The request for snapshot 1 is
dropped: the completed scheduler is idle with only snapshot 0 ever
dispatched, and no follow-up render is dispatched at completion. -/
theorem C1_request_during_flight_dropped :
    sched_run (sched_init (0 : ℕ))
        ([SchedEvent.request 0] ++ List.replicate 101 SchedEvent.tick ++
          [SchedEvent.request 1] ++ List.replicate 101 SchedEvent.tick ++
          [SchedEvent.completeOk]) =
      { live := 1, update_pending := false, timer := none, is_computing := false,
        active := 0, renders := [0] } ∧
      ¬ (1 : ℕ) ∈ (sched_run (sched_init (0 : ℕ))
        ([SchedEvent.request 0] ++ List.replicate 101 SchedEvent.tick ++
          [SchedEvent.request 1] ++ List.replicate 101 SchedEvent.tick ++
          [SchedEvent.completeOk])).renders := by
  exact ⟨by decide, by decide⟩

/-- C1 (amended): a request arriving while a render is in flight never starts
a second render, but it is not remembered as pending either: if its debounce
timer expires while the render is still in flight, the expiry merely clears
`update_pending` and nothing is dispatched then or on completion (completion,
successful or failed, never dispatches); a follow-up render happens only when
a timer expires after the in-flight render has completed, and it then uses
the live snapshot of that moment. -/
theorem C1_no_followup_on_completion (σ : Type) :
    (∀ st : SchedState σ, st.is_computing = true → st.timer = some 0 →
        sched_step SchedEvent.tick st =
          { st with timer := none, update_pending := false }) ∧
      (∀ st : SchedState σ,
        (sched_step SchedEvent.completeOk st).renders = st.renders ∧
          (sched_step SchedEvent.completeErr st).renders = st.renders) ∧
      (∀ st : SchedState σ, st.is_computing = false → st.timer = some 0 →
        sched_step SchedEvent.tick st =
          { st with
            timer := none
            update_pending := false
            is_computing := true
            active := st.active + 1
            renders := st.renders ++ [st.live] }) := by
  refine ⟨?_, ?_, ?_⟩
  · intro st h1 h2
    obtain ⟨live, pending, timer, comp, act, rend⟩ := st
    simp only at h1 h2
    subst h1
    subst h2
    rfl
  · intro st
    constructor
    · simp only [sched_step, check_computation]
      split <;> rfl
    · simp only [sched_step, check_computation]
      split <;> rfl
  · intro st h1 h2
    obtain ⟨live, pending, timer, comp, act, rend⟩ := st
    simp only at h1 h2
    subst h1
    subst h2
    rfl

/-- Witness for C1 on concrete in-flight and idle states. -/
theorem C1_witness :
    (({ live := (9 : ℕ), update_pending := true, timer := some 0,
          is_computing := true, active := 1, renders := [4] } : SchedState ℕ).is_computing = true ∧
        sched_step SchedEvent.tick
            { live := (9 : ℕ), update_pending := true, timer := some 0,
              is_computing := true, active := 1, renders := [4] } =
          { live := (9 : ℕ), update_pending := false, timer := none,
            is_computing := true, active := 1, renders := [4] }) ∧
      (sched_step SchedEvent.completeOk
          { live := (9 : ℕ), update_pending := false, timer := none,
            is_computing := true, active := 1, renders := [4] }).renders = [4] ∧
      (({ live := (9 : ℕ), update_pending := true, timer := some 0,
          is_computing := false, active := 0, renders := [] } : SchedState ℕ).is_computing = false ∧
        sched_step SchedEvent.tick
            { live := (9 : ℕ), update_pending := true, timer := some 0,
              is_computing := false, active := 0, renders := [] } =
          { live := (9 : ℕ), update_pending := false, timer := none,
            is_computing := true, active := 1, renders := [9] }) :=
  ⟨⟨rfl, (C1_no_followup_on_completion ℕ).1 _ rfl rfl⟩,
    ((C1_no_followup_on_completion ℕ).2.1 _).1,
    ⟨rfl, (C1_no_followup_on_completion ℕ).2.2 _ rfl rfl⟩⟩

set_option maxRecDepth 8000 in
/-- C2 counterexample run: a request arms the 100 ms timer; 50 ms later a
second request leaves the running timer at 50 ms — it is not reset to 100 as
the claim states (the spec-modelled `requestRender` would reset it) — and
consequently the render fires only 51 ms after the second request. -/
theorem C2_second_request_does_not_reset_timer :
    (sched_run (sched_init (0 : ℕ))
        ([SchedEvent.request 1] ++ List.replicate 50 SchedEvent.tick)).update_pending = true ∧
      (sched_step (SchedEvent.request 2)
          (sched_run (sched_init (0 : ℕ))
            ([SchedEvent.request 1] ++ List.replicate 50 SchedEvent.tick))).timer = some 50 ∧
      (requestRender_spec 2
          (sched_run (sched_init (0 : ℕ))
            ([SchedEvent.request 1] ++ List.replicate 50 SchedEvent.tick))).timer = some 100 ∧
      (sched_step (SchedEvent.request 2)
          (sched_run (sched_init (0 : ℕ))
            ([SchedEvent.request 1] ++ List.replicate 50 SchedEvent.tick))).timer ≠
        (requestRender_spec 2
          (sched_run (sched_init (0 : ℕ))
            ([SchedEvent.request 1] ++ List.replicate 50 SchedEvent.tick))).timer ∧
      (sched_run (sched_init (0 : ℕ))
          ([SchedEvent.request 1] ++ List.replicate 50 SchedEvent.tick ++
            [SchedEvent.request 2] ++ List.replicate 51 SchedEvent.tick)).renders = [2] := by
  refine ⟨by decide, by decide, by decide, by decide, by decide⟩

/-- C2 (amended): `schedule_update` never blocks or touches the running
computation (it always succeeds, only recording the new live snapshot), and
while the debounce timer is pending a new request changes nothing but the
live snapshot — the timer keeps running and no separate snapshot is stored.
Consequently any `N ≥ 1` requests issued before the timer expires collapse
into exactly one dispatched render computed from the last snapshot
(`rest.getLastD s` is the last element of the request list `s :: rest`). -/
theorem C2_burst_collapses_to_last_snapshot (σ : Type) :
    (∀ (st : SchedState σ) (s : σ),
        (sched_step (SchedEvent.request s) st).renders = st.renders ∧
          (sched_step (SchedEvent.request s) st).is_computing = st.is_computing ∧
          (sched_step (SchedEvent.request s) st).live = s) ∧
      (∀ (st : SchedState σ) (s : σ), st.update_pending = true →
        sched_step (SchedEvent.request s) st = { st with live := s }) ∧
      (∀ (s₀ s : σ) (rest : List σ),
        sched_run (sched_init s₀)
            ((s :: rest).map SchedEvent.request ++ List.replicate 101 SchedEvent.tick) =
          { live := rest.getLastD s, update_pending := false, timer := none,
            is_computing := true, active := 1, renders := [rest.getLastD s] }) := by
  refine ⟨?_, ?_, ?_⟩
  · intro st s
    refine ⟨?_, ?_, ?_⟩ <;>
      · simp only [sched_step, schedule_update]
        split <;> rfl
  · intro st s h
    simp [sched_step, schedule_update, h]
  · intro s₀ s rest
    rw [List.map_cons, sched_run_append, sched_run_cons]
    have hstep1 : sched_step (SchedEvent.request s) (sched_init s₀) =
        { live := s, update_pending := true, timer := some 100, is_computing := false,
          active := 0, renders := [] } := rfl
    rw [hstep1, run_requests_of_pending rest _ rfl]
    have h101 : (101 : ℕ) = 100 + 1 := by norm_num
    rw [h101, List.replicate_succ', sched_run_append,
      run_ticks_countdown 100 100 _ rfl le_rfl]
    rfl

/-- Witness for C2: a request arriving mid-debounce only replaces the live
snapshot, and a concrete 3-request burst dispatches once with the last one. -/
theorem C2_witness :
    (({ live := (0 : ℕ), update_pending := true, timer := some 42,
          is_computing := false, active := 0, renders := [] } : SchedState ℕ).update_pending
        = true ∧
        sched_step (SchedEvent.request 7)
            { live := (0 : ℕ), update_pending := true, timer := some 42,
              is_computing := false, active := 0, renders := [] } =
          { live := (7 : ℕ), update_pending := true, timer := some 42,
            is_computing := false, active := 0, renders := [] }) ∧
      sched_run (sched_init (0 : ℕ))
          (([1, 2, 3].map SchedEvent.request) ++ List.replicate 101 SchedEvent.tick) =
        { live := 3, update_pending := false, timer := none, is_computing := true,
          active := 1, renders := [3] } :=
  ⟨⟨rfl, (C2_burst_collapses_to_last_snapshot ℕ).2.1 _ 7 rfl⟩,
    (C2_burst_collapses_to_last_snapshot ℕ).2.2 0 1 [2, 3]⟩

/-- Embedding of `MandelbrotExplorerScreen.update_dynamic_iterations` in
`fractal_explorer.py`: when dynamic iterations are enabled, compute
`estimate_required_iterations(zoom_level, base_iterations)` and apply it to
`self.mandelbrot.maxiter` only if it differs from the current value by more
than 10 percent of the current value.  The Tkinter front end's version is
embedded separately below, because it computes its estimate inline. -/
noncomputable def update_dynamic_iterations (dynamic_iterations : Bool) (zoom_level : ℝ)
    (base_iterations maxiter : ℤ) : ℤ :=
  if dynamic_iterations then
    let new_iterations := estimate_required_iterations zoom_level base_iterations
    if 0.1 * (maxiter : ℝ) < |(new_iterations : ℝ) - (maxiter : ℝ)| then new_iterations
    else maxiter
  else maxiter

/-- The iteration count computed inline by the Tkinter
`ModernMandelbrotGUI.update_dynamic_iterations` (lines 677-697):
`int(base_iterations * math.log(zoom_level + 1, 10) + base_iterations)`
capped by `min` at `self.max_iterations = 50000`.  Unlike
`estimate_required_iterations` it has no early return for
`zoom_level <= 1.0`. -/
noncomputable def gui_new_iterations (zoom_level : ℝ) (base_iterations : ℤ) : ℤ :=
  min (truncInt ((base_iterations : ℝ) * Real.logb 10 (zoom_level + 1) + (base_iterations : ℝ)))
    50000

/-- Embedding of the Tkinter `ModernMandelbrotGUI.update_dynamic_iterations`:
same 10 percent threshold, but against the inline `gui_new_iterations`. -/
noncomputable def update_dynamic_iterations_gui (dynamic_iterations : Bool) (zoom_level : ℝ)
    (base_iterations maxiter : ℤ) : ℤ :=
  if dynamic_iterations then
    let new_iterations := gui_new_iterations zoom_level base_iterations
    if 0.1 * (maxiter : ℝ) < |(new_iterations : ℝ) - (maxiter : ℝ)| then new_iterations
    else maxiter
  else maxiter

theorem gui_new_at_nine (b : ℤ) : gui_new_iterations 9 b = min (2 * b) 50000 := by
  rw [gui_new_iterations]
  have h10 : (9 : ℝ) + 1 = 10 := by norm_num
  rw [h10, logb_ten_ten]
  have harg : (b : ℝ) * 1 + (b : ℝ) = ((2 * b : ℤ) : ℝ) := by push_cast; ring
  rw [harg, truncInt_intCast]

theorem logb_ten_two_gt : (3 / 10 : ℝ) < Real.logb 10 2 := by
  rw [Real.lt_logb_iff_rpow_lt (by norm_num) (by norm_num)]
  by_contra h
  push_neg at h
  have hpow : (2 : ℝ) ^ (10 : ℕ) ≤ ((10 : ℝ) ^ ((3 : ℝ) / 10)) ^ (10 : ℕ) :=
    pow_le_pow_left₀ (by norm_num) h 10
  rw [← Real.rpow_natCast ((10 : ℝ) ^ ((3 : ℝ) / 10)) 10,
    ← Real.rpow_mul (by norm_num)] at hpow
  have he : (3 / 10 : ℝ) * (10 : ℕ) = 3 := by push_cast; norm_num
  rw [he, show (3 : ℝ) = ((3 : ℕ) : ℝ) by norm_num, Real.rpow_natCast] at hpow
  norm_num at hpow

theorem logb_ten_two_lt : Real.logb 10 2 < 31 / 100 := by
  rw [Real.logb_lt_iff_lt_rpow (by norm_num) (by norm_num)]
  by_contra h
  push_neg at h
  have hpow : ((10 : ℝ) ^ ((31 : ℝ) / 100)) ^ (100 : ℕ) ≤ (2 : ℝ) ^ (100 : ℕ) :=
    pow_le_pow_left₀ (by positivity) h 100
  rw [← Real.rpow_natCast ((10 : ℝ) ^ ((31 : ℝ) / 100)) 100,
    ← Real.rpow_mul (by norm_num)] at hpow
  have he : (31 / 100 : ℝ) * (100 : ℕ) = 31 := by push_cast; norm_num
  rw [he, show (31 : ℝ) = ((31 : ℕ) : ℝ) by norm_num, Real.rpow_natCast] at hpow
  norm_num at hpow

/-- C10 counterexample input: at `zoom_level = 1`, `base_iterations = 500`
and current budget 500, the Tkinter version computes
`int(500 * log10(2) + 500) ∈ [650, 654]` (since `0.3 < log10 2 < 0.31`),
crosses the 10 percent threshold and applies it — a budget deviating from
`estimateIterations(1, 500) = 500` by more than 10 percent of either
value. -/
theorem C10_gui_applies_beyond_ten_percent :
    estimate_required_iterations 1 500 = 500 ∧
      650 ≤ update_dynamic_iterations_gui true 1 500 500 ∧
      update_dynamic_iterations_gui true 1 500 500 ≤ 654 ∧
      0.1 * ((estimate_required_iterations 1 500 : ℤ) : ℝ) <
        |((estimate_required_iterations 1 500 : ℤ) : ℝ) -
            ((update_dynamic_iterations_gui true 1 500 500 : ℤ) : ℝ)| ∧
      0.1 * ((update_dynamic_iterations_gui true 1 500 500 : ℤ) : ℝ) <
        |((estimate_required_iterations 1 500 : ℤ) : ℝ) -
            ((update_dynamic_iterations_gui true 1 500 500 : ℤ) : ℝ)| := by
  have hgt : (3 / 10 : ℝ) < Real.logb 10 2 := logb_ten_two_gt
  have hlt : Real.logb 10 2 < 31 / 100 := logb_ten_two_lt
  have harg : ((500 : ℤ) : ℝ) * Real.logb 10 ((1 : ℝ) + 1) + ((500 : ℤ) : ℝ) =
      500 * Real.logb 10 2 + 500 := by
    norm_num
  have hlo : (650 : ℝ) < 500 * Real.logb 10 2 + 500 := by nlinarith
  have hhi : 500 * Real.logb 10 2 + 500 < 655 := by nlinarith
  have hpos : (0 : ℝ) ≤ 500 * Real.logb 10 2 + 500 := by linarith
  have hfl_lo : (650 : ℤ) ≤ ⌊(500 * Real.logb 10 2 + 500 : ℝ)⌋ :=
    Int.le_floor.mpr (by push_cast; linarith)
  have hfl_hi : ⌊(500 * Real.logb 10 2 + 500 : ℝ)⌋ ≤ 654 := by
    have h655 : ⌊(500 * Real.logb 10 2 + 500 : ℝ)⌋ < 655 :=
      Int.floor_lt.mpr (by push_cast; linarith)
    omega
  have hnew : gui_new_iterations 1 500 = ⌊(500 * Real.logb 10 2 + 500 : ℝ)⌋ := by
    rw [gui_new_iterations, harg, truncInt_of_nonneg hpos]
    exact min_eq_left (by omega)
  have hnew_lo : (650 : ℤ) ≤ gui_new_iterations 1 500 := by rw [hnew]; exact hfl_lo
  have hnew_hi : gui_new_iterations 1 500 ≤ 654 := by rw [hnew]; exact hfl_hi
  have hcast_lo : (650 : ℝ) ≤ ((gui_new_iterations 1 500 : ℤ) : ℝ) := by
    exact_mod_cast hnew_lo
  have hcast_hi : ((gui_new_iterations 1 500 : ℤ) : ℝ) ≤ 654 := by
    exact_mod_cast hnew_hi
  have hth : 0.1 * ((500 : ℤ) : ℝ) <
      |((gui_new_iterations 1 500 : ℤ) : ℝ) - ((500 : ℤ) : ℝ)| := by
    rw [abs_of_nonneg (by push_cast; linarith)]
    push_cast
    linarith
  have hres : update_dynamic_iterations_gui true 1 500 500 = gui_new_iterations 1 500 := by
    rw [update_dynamic_iterations_gui, if_pos rfl]
    simp only
    rw [if_pos hth]
  have habs : |((500 : ℤ) : ℝ) - ((gui_new_iterations 1 500 : ℤ) : ℝ)| =
      ((gui_new_iterations 1 500 : ℤ) : ℝ) - ((500 : ℤ) : ℝ) := by
    rw [abs_sub_comm, abs_of_nonneg (by push_cast; linarith)]
  refine ⟨estimate_one 500, ?_, ?_, ?_, ?_⟩
  · rw [hres]; exact hnew_lo
  · rw [hres]; exact hnew_hi
  · rw [estimate_one 500, hres, habs]
    push_cast
    linarith
  · rw [estimate_one 500, hres, habs]
    push_cast
    linarith

/-- C10 (amended): with dynamic iterations enabled, each version applies its
freshly computed count exactly when it differs from the current count by more
than 10 percent of the current count, and otherwise leaves the budget
unchanged — within 10 percent of that version's own estimate.  The Kivy
version's estimate is `estimate_required_iterations`; the Tkinter version's
inline `gui_new_iterations` agrees with it for `zoom_level > 1` but lacks
the `zoom_level <= 1` early return. -/
theorem C10_iteration_threshold_both (d : Bool) (z : ℝ) (b cur : ℤ) :
    ((d = true →
        0.1 * (cur : ℝ) < |((estimate_required_iterations z b : ℤ) : ℝ) - (cur : ℝ)| →
        update_dynamic_iterations d z b cur = estimate_required_iterations z b) ∧
      (d = true →
        |((estimate_required_iterations z b : ℤ) : ℝ) - (cur : ℝ)| ≤ 0.1 * (cur : ℝ) →
        update_dynamic_iterations d z b cur = cur ∧
          |((estimate_required_iterations z b : ℤ) : ℝ) -
              ((update_dynamic_iterations d z b cur : ℤ) : ℝ)| ≤
            0.1 * ((update_dynamic_iterations d z b cur : ℤ) : ℝ)) ∧
      (d = false → update_dynamic_iterations d z b cur = cur)) ∧
      ((d = true →
        0.1 * (cur : ℝ) < |((gui_new_iterations z b : ℤ) : ℝ) - (cur : ℝ)| →
        update_dynamic_iterations_gui d z b cur = gui_new_iterations z b) ∧
      (d = true →
        |((gui_new_iterations z b : ℤ) : ℝ) - (cur : ℝ)| ≤ 0.1 * (cur : ℝ) →
        update_dynamic_iterations_gui d z b cur = cur ∧
          |((gui_new_iterations z b : ℤ) : ℝ) -
              ((update_dynamic_iterations_gui d z b cur : ℤ) : ℝ)| ≤
            0.1 * ((update_dynamic_iterations_gui d z b cur : ℤ) : ℝ)) ∧
      (d = false → update_dynamic_iterations_gui d z b cur = cur)) ∧
      (¬ z ≤ 1 → gui_new_iterations z b = estimate_required_iterations z b) := by
  refine ⟨⟨?_, ?_, ?_⟩, ⟨?_, ?_, ?_⟩, ?_⟩
  · intro hd h
    rw [update_dynamic_iterations, if_pos hd]
    simp only
    rw [if_pos h]
  · intro hd h
    have hres : update_dynamic_iterations d z b cur = cur := by
      rw [update_dynamic_iterations, if_pos hd]
      simp only
      rw [if_neg (not_lt.mpr h)]
    refine ⟨hres, ?_⟩
    rw [hres]
    exact h
  · intro hd
    rw [update_dynamic_iterations, hd]
    rfl
  · intro hd h
    rw [update_dynamic_iterations_gui, if_pos hd]
    simp only
    rw [if_pos h]
  · intro hd h
    have hres : update_dynamic_iterations_gui d z b cur = cur := by
      rw [update_dynamic_iterations_gui, if_pos hd]
      simp only
      rw [if_neg (not_lt.mpr h)]
    refine ⟨hres, ?_⟩
    rw [hres]
    exact h
  · intro hd
    rw [update_dynamic_iterations_gui, hd]
    rfl
  · intro hz
    rw [estimate_required_iterations, if_neg hz]
    rfl

/-- Witness for C10 at zoom 9, base 500, current budget 500: both versions
estimate 1000 there, cross the threshold, and apply it. -/
theorem C10_witness :
    ((true = true ∧
        0.1 * ((500 : ℤ) : ℝ) <
          |((estimate_required_iterations 9 500 : ℤ) : ℝ) - ((500 : ℤ) : ℝ)|) ∧
      update_dynamic_iterations true 9 500 500 = estimate_required_iterations 9 500) ∧
      ((0.1 * ((500 : ℤ) : ℝ) <
          |((gui_new_iterations 9 500 : ℤ) : ℝ) - ((500 : ℤ) : ℝ)|) ∧
        update_dynamic_iterations_gui true 9 500 500 = gui_new_iterations 9 500) ∧
      (¬ (9 : ℝ) ≤ 1 ∧ gui_new_iterations 9 500 = estimate_required_iterations 9 500) := by
  have hest : estimate_required_iterations 9 500 = 1000 := estimate_nine_500
  have hgui : gui_new_iterations 9 500 = 1000 := by
    rw [gui_new_at_nine]
    norm_num
  have hgap : 0.1 * ((500 : ℤ) : ℝ) <
      |((estimate_required_iterations 9 500 : ℤ) : ℝ) - ((500 : ℤ) : ℝ)| := by
    rw [hest]
    norm_num
  have hgap2 : 0.1 * ((500 : ℤ) : ℝ) <
      |((gui_new_iterations 9 500 : ℤ) : ℝ) - ((500 : ℤ) : ℝ)| := by
    rw [hgui]
    norm_num
  exact ⟨⟨⟨rfl, hgap⟩, (C10_iteration_threshold_both true 9 500 500).1.1 rfl hgap⟩,
    ⟨hgap2, (C10_iteration_threshold_both true 9 500 500).2.1.1 rfl hgap2⟩,
    ⟨by norm_num, (C10_iteration_threshold_both true 9 500 500).2.2 (by norm_num)⟩⟩
